import Mathlib

/-!
Verification of the RocketShoes cart store (`src/hooks/useCart.tsx`).

The module is a React context provider. We shallow-embed it as:
* pure cart operations (`addProduct`, `removeProduct`, `updateProductAmount`)
  returning `Except CartError (List Product)` — the TypeScript functions
  either call `setCart` with a new array (success) or return after raising a
  toast / being caught by their `catch` block (failure);
* a provider state (`ProviderState`) holding the cart, the stock snapshot,
  the `prevCartRef`/`prevStockRef` refs, the localStorage slot and an
  allocation counter used to model JavaScript reference identity (`!==`);
* a render/effect cycle (`cycle`) embedding the three `useEffect` blocks, and
  a reachability relation over provider states.

Remote calls (`api.get`) are modelled by an environment of functions
returning `Option` values: `none` stands both for a missing resource and for
a rejected fetch, since both land in the same user-visible failure path of
each operation.
-/

namespace RocketShoes

/-- Modelled from the spec: the `Product` type of `src/types.ts` (that file is
not among the sources; only `useCart.tsx` is). A LineItem carries a
`productId` (field `id`, matching the code's `product.id`), an integer
`amount`, and other metadata (name, price, image) that the core carries
opaquely and never interprets, modelled by the single field `meta`. -/
structure Product where
  id : Nat
  amount : Int
  meta : String
deriving Repr, DecidableEq

/-- The failure conditions of the three cart operations (spec §7). In the
code each one surfaces as a toast message:
* `productNotFound` — addProduct's `!product` check or a rejected product
  fetch ("Erro na adição do produto");
* `insufficientStock` — the stock-ceiling checks ("Quantidade solicitada
  fora de estoque");
* `productNotInCart` — removeProduct's `productIndex < 0` throw and
  updateProductAmount's `!productExists` throw;
* `invalidAmount` — updateProductAmount's `amount < 1` throw;
* `transientFailure` — a rejected stock fetch caught by the operation's
  `catch` block. -/
inductive CartError where
  | productNotFound
  | insufficientStock
  | productNotInCart
  | invalidAmount
  | transientFailure
deriving Repr, DecidableEq

/-- The remote reader (`api` in the code). `getProduct` embeds
`GET products/:id` (line 86), `getStock` embeds `GET stock/:id` returning the
`amount` field of the `Stock` record (line 92), `getAllStock` embeds
`GET /stock` (line 52) as a list of `(id, amount)` pairs. `none` models both
a missing resource and a rejected request. -/
structure RemoteEnv where
  getProduct : Nat → Option Product
  getStock : Nat → Option Int
  getAllStock : Option (List (Nat × Int))

/-- Embeds the in-place mutation of the first array element matching
`productId` found by `Array.prototype.find` (lines 108-110 and 165-167):
`find` returns the first match and the code mutates that object inside the
shallow-copied array. -/
def updateFirst (pid : Nat) (f : Product → Product) : List Product → List Product
  | [] => []
  | x :: xs => if x.id = pid then f x :: xs else x :: updateFirst pid f xs

/-- Embeds `addProduct` (useCart.tsx lines 97-131) acting on a cart value:
fetch the product (`none` → "Erro na adição do produto", both for a null
response and a rejected fetch caught by the `catch`); if no cart entry has
this id, set the fetched product's amount to 1 and append it
(`setCart([...updatedCart, product])`); otherwise fetch the stock amount, fail
with "Quantidade solicitada fora de estoque" when the existing amount is
already `>=` the stock amount, and otherwise increment the existing entry's
amount by 1 (`productExists.amount++`). -/
def addProduct (env : RemoteEnv) (pid : Nat) (cart : List Product) :
    Except CartError (List Product) :=
  match env.getProduct pid with
  | none => Except.error CartError.productNotFound
  | some product =>
    match cart.find? (fun p => p.id = pid) with
    | none => Except.ok (cart ++ [{ product with amount := 1 }])
    | some existing =>
      match env.getStock pid with
      | none => Except.error CartError.transientFailure
      | some stockAmount =>
        if existing.amount ≥ stockAmount then Except.error CartError.insufficientStock
        else Except.ok (updateFirst pid (fun p => { p with amount := p.amount + 1 }) cart)

/-- Embeds `Array.prototype.findIndex` (lines 136-138): the index of the
first match, or `-1` when there is none. -/
def findIndex (q : Product → Bool) : List Product → Int
  | [] => -1
  | x :: xs =>
    if q x then 0
    else
      let i := findIndex q xs
      if i < 0 then -1 else i + 1

/-- Embeds `removeProduct` (useCart.tsx lines 133-148): `findIndex` on the
shallow copy; `productIndex < 0` throws into the `catch` ("Erro na remoção do
produto"); otherwise `splice(productIndex, 1)` deletes exactly that entry. -/
def removeProduct (pid : Nat) (cart : List Product) :
    Except CartError (List Product) :=
  let productIndex := findIndex (fun p => p.id = pid) cart
  if productIndex < 0 then Except.error CartError.productNotInCart
  else Except.ok (cart.eraseIdx productIndex.toNat)

/-- Embeds `updateProductAmount` (useCart.tsx lines 150-177): `amount < 1`
throws into the `catch` ("Erro na alteração de quantidade do produto"); then
the stock amount is fetched (a rejected fetch lands in the same `catch`);
`stockAmount < amount` fails with "Quantidade solicitada fora de estoque"; a
missing cart entry throws into the `catch`; otherwise the first matching
entry's amount is overwritten with the requested value. -/
def updateProductAmount (env : RemoteEnv) (pid : Nat) (amount : Int)
    (cart : List Product) : Except CartError (List Product) :=
  if amount < 1 then Except.error CartError.invalidAmount
  else
    match env.getStock pid with
    | none => Except.error CartError.transientFailure
    | some stockAmount =>
      if stockAmount < amount then Except.error CartError.insufficientStock
      else
        match cart.find? (fun p => p.id = pid) with
        | none => Except.error CartError.productNotInCart
        | some _ => Except.ok (updateFirst pid (fun p => { p with amount := amount }) cart)

/-- The content of the localStorage slot `@RocketShoes:cart`, classified by
how `JSON.parse` behaves on the stored string:
* `absent` — no stored value (also the empty string, which is falsy at
  line 43);
* `value c` — a stored string that `JSON.parse` decodes to the cart `c`
  (JSON round-tripping of these records is content-faithful);
* `malformed` — a stored string on which `JSON.parse` throws a SyntaxError,
  e.g. `"not json"`. -/
inductive CacheSlot where
  | absent
  | value (cart : List Product)
  | malformed
deriving Repr, DecidableEq

/-- Embeds the `useState` initializer of `cart` (useCart.tsx lines 40-48):
read the slot; a falsy stored value yields `[]`; otherwise
`return JSON.parse(storedCart)` with no try/catch around it, so a malformed
stored value makes the initializer throw (`Except.error`). -/
def initCart : CacheSlot → Except Unit (List Product)
  | CacheSlot.absent => Except.ok []
  | CacheSlot.value c => Except.ok c
  | CacheSlot.malformed => Except.error ()

/-- Assignment `m[k] = v` on the accumulator object of `loadStocks`'s
reduce: overwrite the entry for `k` if present, otherwise add it. -/
def setEntry : List (Nat × Int) → Nat → Int → List (Nat × Int)
  | [], k, v => [(k, v)]
  | (k₀, v₀) :: rest, k, v =>
    if k₀ = k then (k, v) :: rest else (k₀, v₀) :: setEntry rest k v

/-- Embeds the reduce in `loadStocks` (useCart.tsx lines 54-57): fold the
fetched stock list into a productId → amount mapping. -/
def buildStockMap (data : List (Nat × Int)) : List (Nat × Int) :=
  data.foldl (fun m e => setEntry m e.1 e.2) []

/-- The provider's state. JavaScript reference identity (the `!==` guards of
the two effects at lines 74 and 80) is modelled by tagging the current cart
and stock values with allocation ids: every `setCart`/`setStock` call in the
code passes a freshly constructed array/object, so it installs a fresh tag
drawn from `nextRef`. `prevCartRef`/`prevStockRef` model the `useRef` cells
(`none` before the first effect pass). `cache` is the localStorage slot. -/
structure ProviderState where
  cart : List Product
  cartRef : Nat
  stock : List (Nat × Int)
  stockRef : Nat
  prevCartRef : Option Nat
  prevStockRef : Option Nat
  cache : CacheSlot
  nextRef : Nat
deriving Repr, DecidableEq

/-- The provider state right after `CartProvider` first runs (lines 40-49):
cart from the initializer, stock `{}`, refs not yet populated, the
localStorage slot untouched. -/
def initState (slot : CacheSlot) (c : List Product) : ProviderState :=
  { cart := c
    cartRef := 0
    stock := []
    stockRef := 1
    prevCartRef := none
    prevStockRef := none
    cache := slot
    nextRef := 2 }

/-- Embeds `setCart` with a freshly constructed array (lines 114, 127, 144,
173): install the new cart value under a fresh reference tag. -/
def commitCart (s : ProviderState) (c : List Product) : ProviderState :=
  { s with cart := c, cartRef := s.nextRef, nextRef := s.nextRef + 1 }

/-- `addProduct` acting on the provider state: on success the new cart is
committed via `setCart`; on failure the operation returns without calling
`setCart`, leaving the state untouched. -/
def runAdd (env : RemoteEnv) (pid : Nat) (s : ProviderState) :
    ProviderState × Except CartError Unit :=
  match addProduct env pid s.cart with
  | Except.error e => (s, Except.error e)
  | Except.ok c => (commitCart s c, Except.ok ())

/-- `removeProduct` acting on the provider state. -/
def runRemove (pid : Nat) (s : ProviderState) :
    ProviderState × Except CartError Unit :=
  match removeProduct pid s.cart with
  | Except.error e => (s, Except.error e)
  | Except.ok c => (commitCart s c, Except.ok ())

/-- `updateProductAmount` acting on the provider state. -/
def runUpdate (env : RemoteEnv) (pid : Nat) (amount : Int) (s : ProviderState) :
    ProviderState × Except CartError Unit :=
  match updateProductAmount env pid amount s.cart with
  | Except.error e => (s, Except.error e)
  | Except.ok c => (commitCart s c, Except.ok ())

/-- One render + effect pass of `CartProvider` (useCart.tsx lines 62-83).
During render, `cartPreviousValue`/`stockPreviousValue` are computed from the
refs (`?? current` when a ref is still unset). The effects then run in
declaration order: the ref-recording effect (lines 65-68); the mirror effect
(lines 73-77), which writes `JSON.stringify(cart)` to the slot exactly when
the cart reference changed; and the refresh effect (lines 79-83), which runs
`loadStocks` exactly when the stock reference changed — a rejected `/stock`
fetch leaves the state alone (the rejection is unhandled but changes
nothing), a successful one installs the reduced mapping via `setStock` under
a fresh reference. Guards that are false coincide with the dependency arrays
not having changed, so modelling the effects as always running with the
guard inside is exact. -/
def cycle (env : RemoteEnv) (s : ProviderState) : ProviderState :=
  let cartPrev := s.prevCartRef.getD s.cartRef
  let stockPrev := s.prevStockRef.getD s.stockRef
  let s₁ := { s with prevCartRef := some s.cartRef, prevStockRef := some s.stockRef }
  let s₂ := if cartPrev = s.cartRef then s₁ else { s₁ with cache := CacheSlot.value s.cart }
  if stockPrev = s.stockRef then s₂
  else
    match env.getAllStock with
    | none => s₂
    | some data =>
      { s₂ with stock := buildStockMap data, stockRef := s₂.nextRef, nextRef := s₂.nextRef + 1 }

/-- Reachable provider states: mount (the initializer succeeded, followed by
the first effect pass), a plain re-render, or one of the three cart
operations followed by the effect pass its `setCart` (if any) triggers. Each
step may see a different remote environment, so remote data is free to change
between steps. -/
inductive Reachable : ProviderState → Prop
  | mount (env : RemoteEnv) (slot : CacheSlot) (c : List Product) :
      initCart slot = Except.ok c → Reachable (cycle env (initState slot c))
  | render (env : RemoteEnv) {s : ProviderState} :
      Reachable s → Reachable (cycle env s)
  | add (env env₂ : RemoteEnv) (pid : Nat) {s : ProviderState} :
      Reachable s → Reachable (cycle env₂ (runAdd env pid s).1)
  | remove (env₂ : RemoteEnv) (pid : Nat) {s : ProviderState} :
      Reachable s → Reachable (cycle env₂ (runRemove pid s).1)
  | update (env env₂ : RemoteEnv) (pid : Nat) (amount : Int) {s : ProviderState} :
      Reachable s → Reachable (cycle env₂ (runUpdate env pid amount s).1)

/-! ### Concrete sample values for evaluations -/

/-- A concrete remote environment in which product 1 resolves, every
per-product stock query answers 0, and the full stock listing is
unavailable. -/
def zeroStockEnv : RemoteEnv :=
  { getProduct := fun pid =>
      if pid = 1 then some { id := 1, amount := 7, meta := "shoe" } else none
    getStock := fun _ => some 0
    getAllStock := none }

/-- A concrete remote environment in which product 1 resolves and its stock
amount is 5. -/
def sampleEnv : RemoteEnv :=
  { getProduct := fun pid =>
      if pid = 1 then some { id := 1, amount := 7, meta := "shoe" } else none
    getStock := fun pid => if pid = 1 then some 5 else none
    getAllStock := none }

/-- The provider state right after mounting with an absent cache slot, under
`sampleEnv`. -/
def mounted : ProviderState := cycle sampleEnv (initState CacheSlot.absent [])

/-- `mounted` after a successful `addProduct(1)` and the effect pass it
triggers. -/
def mountedAdd1 : ProviderState := cycle sampleEnv (runAdd sampleEnv 1 mounted).1

/-- The provider state right after mounting with an absent cache slot, under
`zeroStockEnv`. -/
def zeroMounted : ProviderState :=
  cycle zeroStockEnv (initState CacheSlot.absent [])

/-- `zeroMounted` after `addProduct(1)` — committed although the recorded
stock amount for product 1 is 0. -/
def zeroAdded : ProviderState :=
  cycle zeroStockEnv (runAdd zeroStockEnv 1 zeroMounted).1

/-! ### Invariant of reachable provider states -/

/-- The invariant maintained by every reachable provider state: each `useRef`
cell holds the reference of the value installed in the previous pass (which,
after any completed effect pass, is the current one), reference tags are
below the allocation counter, and the stock snapshot is empty. -/
def Inv (s : ProviderState) : Prop :=
  s.prevCartRef = some s.cartRef ∧ s.prevStockRef = some s.stockRef ∧
  s.cartRef < s.nextRef ∧ s.stockRef < s.nextRef ∧ s.stock = []

lemma cycle_of_inv (env : RemoteEnv) (s : ProviderState) (h : Inv s) :
    cycle env s = s := by
  obtain ⟨h₁, h₂, -, -, -⟩ := h
  simp [cycle, h₁, h₂]
  rw [← h₁, ← h₂]

lemma inv_cycle_initState (env : RemoteEnv) (slot : CacheSlot) (c : List Product) :
    Inv (cycle env (initState slot c)) := by
  simp [cycle, initState, Inv]

lemma cycle_commitCart (env : RemoteEnv) (s : ProviderState) (c : List Product)
    (h : Inv s) :
    cycle env (commitCart s c) =
      { s with
        cart := c
        cartRef := s.nextRef
        nextRef := s.nextRef + 1
        prevCartRef := some s.nextRef
        prevStockRef := some s.stockRef
        cache := CacheSlot.value c } := by
  obtain ⟨h₁, h₂, h₃, h₄, h₅⟩ := h
  have hne : ¬ s.cartRef = s.nextRef := by omega
  simp [cycle, commitCart, h₁, h₂, hne]

lemma inv_cycle_commitCart (env : RemoteEnv) (s : ProviderState) (c : List Product)
    (h : Inv s) : Inv (cycle env (commitCart s c)) := by
  rw [cycle_commitCart env s c h]
  obtain ⟨h₁, h₂, h₃, h₄, h₅⟩ := h
  refine ⟨rfl, rfl, ?_, ?_, h₅⟩
  · show s.nextRef < s.nextRef + 1
    omega
  · show s.stockRef < s.nextRef + 1
    omega

lemma inv_cycle_runAdd (env env₂ : RemoteEnv) (pid : Nat) (s : ProviderState)
    (h : Inv s) : Inv (cycle env₂ (runAdd env pid s).1) := by
  rcases hr : addProduct env pid s.cart with e | c
  · rw [show (runAdd env pid s).1 = s by simp [runAdd, hr], cycle_of_inv _ _ h]
    exact h
  · rw [show (runAdd env pid s).1 = commitCart s c by simp [runAdd, hr]]
    exact inv_cycle_commitCart env₂ s c h

lemma inv_cycle_runRemove (env₂ : RemoteEnv) (pid : Nat) (s : ProviderState)
    (h : Inv s) : Inv (cycle env₂ (runRemove pid s).1) := by
  rcases hr : removeProduct pid s.cart with e | c
  · rw [show (runRemove pid s).1 = s by simp [runRemove, hr], cycle_of_inv _ _ h]
    exact h
  · rw [show (runRemove pid s).1 = commitCart s c by simp [runRemove, hr]]
    exact inv_cycle_commitCart env₂ s c h

lemma inv_cycle_runUpdate (env env₂ : RemoteEnv) (pid : Nat) (amount : Int)
    (s : ProviderState) (h : Inv s) :
    Inv (cycle env₂ (runUpdate env pid amount s).1) := by
  rcases hr : updateProductAmount env pid amount s.cart with e | c
  · rw [show (runUpdate env pid amount s).1 = s by simp [runUpdate, hr],
      cycle_of_inv _ _ h]
    exact h
  · rw [show (runUpdate env pid amount s).1 = commitCart s c by simp [runUpdate, hr]]
    exact inv_cycle_commitCart env₂ s c h

lemma reachable_inv (s : ProviderState) (h : Reachable s) : Inv s := by
  induction h with
  | mount env slot c _ => exact inv_cycle_initState env slot c
  | render env _ ih => rw [cycle_of_inv _ _ ih]; exact ih
  | add env env₂ pid _ ih => exact inv_cycle_runAdd env env₂ pid _ ih
  | remove env₂ pid _ ih => exact inv_cycle_runRemove env₂ pid _ ih
  | update env env₂ pid amount _ ih => exact inv_cycle_runUpdate env env₂ pid amount _ ih

/-! ### List helper lemmas -/

lemma find?_some_decomp (pid : Nat) (f : Product → Product) (cart : List Product)
    (x : Product) (h : cart.find? (fun p => p.id = pid) = some x) :
    ∃ l₁ l₂, cart = l₁ ++ x :: l₂ ∧ (∀ p ∈ l₁, p.id ≠ pid) ∧ x.id = pid ∧
      updateFirst pid f cart = l₁ ++ f x :: l₂ := by
  induction cart with
  | nil => simp at h
  | cons y ys ih =>
    by_cases hy : y.id = pid
    · rw [List.find?_cons_of_pos _ (by simpa using hy)] at h
      obtain rfl : y = x := by injection h
      exact ⟨[], ys, rfl, by simp, hy, by simp [updateFirst, hy]⟩
    · rw [List.find?_cons_of_neg _ (by simpa using hy)] at h
      obtain ⟨l₁, l₂, hcart, hl₁, hx, hupd⟩ := ih h
      refine ⟨y :: l₁, l₂, by simp [hcart], ?_, hx, by simp [updateFirst, hy, hupd]⟩
      intro p hp
      rcases List.mem_cons.mp hp with rfl | hp
      · exact hy
      · exact hl₁ p hp

lemma find?_append_ne (pid : Nat) (l₁ l₂ : List Product) (z : Product)
    (h : ∀ p ∈ l₁, p.id ≠ pid) (hz : z.id = pid) :
    (l₁ ++ z :: l₂).find? (fun p => p.id = pid) = some z := by
  induction l₁ with
  | nil =>
    rw [List.nil_append]
    exact List.find?_cons_of_pos _ (by simpa using hz)
  | cons y ys ih =>
    rw [List.cons_append,
      List.find?_cons_of_neg _ (by simpa using h y (List.mem_cons_self y ys))]
    exact ih fun p hp => h p (List.mem_cons_of_mem y hp)

lemma findIndex_eq_neg_one (q : Product → Bool) (cart : List Product)
    (h : ∀ p ∈ cart, q p = false) : findIndex q cart = -1 := by
  induction cart with
  | nil => rfl
  | cons y ys ih =>
    have hy := h y (List.mem_cons_self y ys)
    have hys := ih fun p hp => h p (List.mem_cons_of_mem y hp)
    simp [findIndex, hy, hys]

lemma findIndex_neg_all_false (q : Product → Bool) (cart : List Product)
    (h : findIndex q cart < 0) : ∀ p ∈ cart, q p = false := by
  induction cart with
  | nil => simp
  | cons y ys ih =>
    by_cases hy : q y
    · simp [findIndex, hy] at h
    · intro p hp
      rcases List.mem_cons.mp hp with rfl | hp
      · simpa using hy
      · refine ih ?_ p hp
        by_cases hi : findIndex q ys < 0
        · exact hi
        · have hstep : findIndex q (y :: ys) = findIndex q ys + 1 := by
            simp [findIndex, hy, hi]
          omega

lemma findIndex_nonneg_decomp (q : Product → Bool) (cart : List Product)
    (h : ¬ findIndex q cart < 0) :
    ∃ l₁ x l₂, cart = l₁ ++ x :: l₂ ∧ (∀ p ∈ l₁, q p = false) ∧ q x = true ∧
      (findIndex q cart).toNat = l₁.length := by
  induction cart with
  | nil => simp [findIndex] at h
  | cons y ys ih =>
    by_cases hy : q y
    · exact ⟨[], y, ys, rfl, by simp, hy, by simp [findIndex, hy]⟩
    · by_cases hi : findIndex q ys < 0
      · exact absurd (by simp [findIndex, hy, hi]) h
      · obtain ⟨l₁, x, l₂, hc, hl₁, hx, hlen⟩ := ih hi
        refine ⟨y :: l₁, x, l₂, by simp [hc], ?_, hx, ?_⟩
        · intro p hp
          rcases List.mem_cons.mp hp with rfl | hp
          · simpa using hy
          · exact hl₁ p hp
        · have hstep : findIndex q (y :: ys) = findIndex q ys + 1 := by
            simp [findIndex, hy, hi]
          rw [hstep, List.length_cons]
          omega

lemma eraseIdx_append_length (l₁ l₂ : List Product) (x : Product) :
    (l₁ ++ x :: l₂).eraseIdx l₁.length = l₁ ++ l₂ := by
  induction l₁ with
  | nil => rfl
  | cons y ys ih => simpa [List.eraseIdx] using ih

/-! ### Claims -/

/-- C1 (counterexample): the stock-ceiling invariant fails as stated. From
the empty mounted cart, `addProduct(1)` under an environment whose recorded
stock amount for product 1 is 0 succeeds (the first-add branch performs no
stock check) and commits a LineItem with amount 1, and 1 is not `≤ 0`. So a
reachable state contains a LineItem whose amount exceeds the stock amount
recorded for its productId at the time of its only (and hence last)
successful mutating operation. -/
theorem stock_ceiling_counterexample :
    Reachable zeroAdded ∧
    (runAdd zeroStockEnv 1 zeroMounted).2 = Except.ok () ∧
    zeroAdded.cart = [{ id := 1, amount := 1, meta := "shoe" }] ∧
    zeroStockEnv.getStock 1 = some 0 ∧
    ¬ ((1 : Int) ≤ 0) := by
  refine ⟨?_, rfl, rfl, rfl, by decide⟩
  exact Reachable.add zeroStockEnv zeroStockEnv 1
    (Reachable.mount zeroStockEnv CacheSlot.absent [] rfl)

/-- C1 (amended): the stock ceiling holds exactly for the mutations that
perform a stock check. If a successful `addProduct` found the product already
in the cart, or a successful `updateProductAmount` ran, then the stock fetch
returned some amount `st` and the affected LineItem (the first entry for that
productId in the new cart) has amount `≤ st`. A first-time `addProduct`
performs no stock check and sets the amount to 1 unconditionally. -/
theorem stock_ceiling_checked_ops (env : RemoteEnv) (pid : Nat) (amt : Int)
    (cart newCart : List Product) :
    (cart.find? (fun p => p.id = pid) ≠ none →
      addProduct env pid cart = Except.ok newCart →
      ∃ st x, env.getStock pid = some st ∧
        newCart.find? (fun p => p.id = pid) = some x ∧ x.amount ≤ st)
  ∧ (updateProductAmount env pid amt cart = Except.ok newCart →
      ∃ st x, env.getStock pid = some st ∧
        newCart.find? (fun p => p.id = pid) = some x ∧ x.amount ≤ st) := by
  constructor
  · intro hne hok
    rcases hp : env.getProduct pid with _ | product
    · simp [addProduct, hp] at hok
    · rcases hf : cart.find? (fun p => p.id = pid) with _ | existing
      · exact absurd hf hne
      · rcases hs : env.getStock pid with _ | st
        · simp [addProduct, hp, hf, hs] at hok
        · by_cases hge : existing.amount ≥ st
          · simp [addProduct, hp, hf, hs, hge] at hok
          · have hok₂ : newCart =
                updateFirst pid (fun p => { p with amount := p.amount + 1 }) cart := by
              simp [addProduct, hp, hf, hs, hge] at hok
              exact hok.symm
            obtain ⟨l₁, l₂, hc, hl₁, hx, hupd⟩ :=
              find?_some_decomp pid (fun p => { p with amount := p.amount + 1 })
                cart existing hf
            refine ⟨st, { existing with amount := existing.amount + 1 }, rfl, ?_, ?_⟩
            · rw [hok₂, hupd]
              exact find?_append_ne pid l₁ l₂ _ hl₁ hx
            · show existing.amount + 1 ≤ st
              omega
  · intro hok
    by_cases h₁ : amt < 1
    · simp [updateProductAmount, h₁] at hok
    · rcases hs : env.getStock pid with _ | st
      · simp [updateProductAmount, h₁, hs] at hok
      · by_cases h₂ : st < amt
        · simp [updateProductAmount, h₁, hs, h₂] at hok
        · rcases hf : cart.find? (fun p => p.id = pid) with _ | x
          · simp [updateProductAmount, h₁, hs, h₂, hf] at hok
          · have hok₂ : newCart =
                updateFirst pid (fun p => { p with amount := amt }) cart := by
              simp [updateProductAmount, h₁, hs, h₂, hf] at hok
              exact hok.symm
            obtain ⟨l₁, l₂, hc, hl₁, hx, hupd⟩ :=
              find?_some_decomp pid (fun p => { p with amount := amt }) cart x hf
            refine ⟨st, { x with amount := amt }, rfl, ?_, ?_⟩
            · rw [hok₂, hupd]
              exact find?_append_ne pid l₁ l₂ _ hl₁ hx
            · show amt ≤ st
              omega

/-- C1 (amended, witness): concrete instance — incrementing product 1 from
amount 1 under stock 5 leaves its cart entry at amount 2 `≤ 5`. -/
theorem stock_ceiling_checked_ops_witness :
    ∃ st x, sampleEnv.getStock 1 = some st ∧
      ([{ id := 1, amount := 1 + 1, meta := "shoe" }] :
          List Product).find? (fun p => p.id = 1) = some x ∧
      x.amount ≤ st :=
  (stock_ceiling_checked_ops sampleEnv 1 0
      [{ id := 1, amount := 1, meta := "shoe" }]
      [{ id := 1, amount := 1 + 1, meta := "shoe" }]).1 (by decide) rfl

/-- C2: atomicity on failure. For a reachable provider state, whenever one of
the three operations signals a failure condition, the whole provider state
(cart, references, cache) is exactly what it was before the call, and the
render pass that follows leaves the durable cache slot untouched — no partial
mutation is committed or mirrored. -/
theorem failure_atomicity (env env₂ : RemoteEnv) (pid : Nat) (amt : Int)
    (s : ProviderState) (hs : Reachable s) :
    (∀ e, (runAdd env pid s).2 = Except.error e →
       (runAdd env pid s).1 = s ∧
       (cycle env₂ (runAdd env pid s).1).cache = s.cache)
  ∧ (∀ e, (runRemove pid s).2 = Except.error e →
       (runRemove pid s).1 = s ∧
       (cycle env₂ (runRemove pid s).1).cache = s.cache)
  ∧ (∀ e, (runUpdate env pid amt s).2 = Except.error e →
       (runUpdate env pid amt s).1 = s ∧
       (cycle env₂ (runUpdate env pid amt s).1).cache = s.cache) := by
  have hInv := reachable_inv s hs
  refine ⟨fun e he => ?_, fun e he => ?_, fun e he => ?_⟩
  · rcases hr : addProduct env pid s.cart with e₀ | c
    · have h₁ : (runAdd env pid s).1 = s := by simp [runAdd, hr]
      rw [h₁, cycle_of_inv env₂ s hInv]
      exact ⟨rfl, rfl⟩
    · simp [runAdd, hr] at he
  · rcases hr : removeProduct pid s.cart with e₀ | c
    · have h₁ : (runRemove pid s).1 = s := by simp [runRemove, hr]
      rw [h₁, cycle_of_inv env₂ s hInv]
      exact ⟨rfl, rfl⟩
    · simp [runRemove, hr] at he
  · rcases hr : updateProductAmount env pid amt s.cart with e₀ | c
    · have h₁ : (runUpdate env pid amt s).1 = s := by simp [runUpdate, hr]
      rw [h₁, cycle_of_inv env₂ s hInv]
      exact ⟨rfl, rfl⟩
    · simp [runUpdate, hr] at he

/-- C2 (witness): removing product 2 from the empty mounted cart fails and
leaves the provider state and the cache slot untouched. -/
theorem failure_atomicity_witness :
    (runRemove 2 zeroMounted).1 = zeroMounted ∧
    (cycle zeroStockEnv (runRemove 2 zeroMounted).1).cache = zeroMounted.cache :=
  (failure_atomicity zeroStockEnv zeroStockEnv 2 0 zeroMounted
    (Reachable.mount zeroStockEnv CacheSlot.absent [] rfl)).2.1
    CartError.productNotInCart rfl

/-- C3 (counterexample): a malformed cached value does not fall back to the
empty cart — `JSON.parse` has no surrounding try/catch, so the initializer
throws. -/
theorem init_malformed_counterexample :
    initCart CacheSlot.malformed = Except.error () ∧
    initCart CacheSlot.malformed ≠ Except.ok [] :=
  ⟨rfl, fun h => by simp [initCart] at h⟩

/-- C3 (amended): at store creation the cart is read from the durable cache;
an absent (or falsy) value yields the empty cart, a readable value yields its
content, but a malformed value makes initialization fail (the `JSON.parse`
exception is unhandled) instead of falling back to the empty cart. -/
theorem init_fallback_amended :
    initCart CacheSlot.absent = Except.ok [] ∧
    (∀ c, initCart (CacheSlot.value c) = Except.ok c) ∧
    initCart CacheSlot.malformed = Except.error () :=
  ⟨rfl, fun _ => rfl, rfl⟩

/-- C4: `addProduct` on an already-present product fetches the stock amount;
if the existing LineItem's amount is already `≥` that stock amount the
operation fails with the insufficient-stock condition; otherwise exactly that
LineItem's amount is incremented by 1 — all LineItems before it (none of
which match the productId) and after it, and their order, are unchanged — and
the result is committed via `setCart`. -/
theorem addProduct_existing (env : RemoteEnv) (pid : Nat) (cart : List Product)
    (product existing : Product) (st : Int)
    (hp : env.getProduct pid = some product)
    (hf : cart.find? (fun p => p.id = pid) = some existing)
    (hs : env.getStock pid = some st) :
    (existing.amount ≥ st →
       addProduct env pid cart = Except.error CartError.insufficientStock)
  ∧ (existing.amount < st → ∃ l₁ l₂,
       cart = l₁ ++ existing :: l₂ ∧ (∀ p ∈ l₁, p.id ≠ pid) ∧
       addProduct env pid cart =
         Except.ok (l₁ ++ { existing with amount := existing.amount + 1 } :: l₂))
  ∧ (existing.amount < st → ∀ sp : ProviderState, sp.cart = cart →
       (runAdd env pid sp).2 = Except.ok ()) := by
  refine ⟨fun hge => by simp [addProduct, hp, hf, hs, hge], fun hlt => ?_,
    fun hlt sp hsc => ?_⟩
  · obtain ⟨l₁, l₂, hc, hl₁, hx, hupd⟩ :=
      find?_some_decomp pid (fun p => { p with amount := p.amount + 1 })
        cart existing hf
    have hadd : addProduct env pid cart =
        Except.ok (updateFirst pid (fun p => { p with amount := p.amount + 1 }) cart) := by
      simp [addProduct, hp, hf, hs, not_le.mpr hlt]
    exact ⟨l₁, l₂, hc, hl₁, by rw [hadd, hupd]⟩
  · have hadd : addProduct env pid cart =
        Except.ok (updateFirst pid (fun p => { p with amount := p.amount + 1 }) cart) := by
      simp [addProduct, hp, hf, hs, not_le.mpr hlt]
    simp [runAdd, hsc, hadd]

/-- C4 (witness): with product 1 at amount 1 in the cart and stock 5, the
add succeeds and the single entry is incremented to 2. -/
theorem addProduct_existing_witness :
    ∃ l₁ l₂,
      [{ id := 1, amount := 1, meta := "shoe" }] =
          l₁ ++ { id := 1, amount := 1, meta := "shoe" } :: l₂ ∧
      (∀ p ∈ l₁, p.id ≠ 1) ∧
      addProduct sampleEnv 1 [{ id := 1, amount := 1, meta := "shoe" }] =
        Except.ok (l₁ ++ { id := 1, amount := 1 + 1, meta := "shoe" } :: l₂) :=
  (addProduct_existing sampleEnv 1 [{ id := 1, amount := 1, meta := "shoe" }]
    { id := 1, amount := 7, meta := "shoe" } { id := 1, amount := 1, meta := "shoe" }
    5 rfl rfl rfl).2.1 (by decide)

/-- C5: persistence mirror. For a reachable provider state, after a
successful mutating operation the render pass fires the mirror effect (the
cart reference is fresh, so it differs from the previous cycle's reference)
and the cache slot then holds exactly the serialization of the committed
in-memory cart. -/
theorem cache_mirror (env env₂ : RemoteEnv) (pid : Nat) (amt : Int)
    (s : ProviderState) (hs : Reachable s) :
    ((runAdd env pid s).2 = Except.ok () →
       (cycle env₂ (runAdd env pid s).1).cache =
         CacheSlot.value (runAdd env pid s).1.cart)
  ∧ ((runRemove pid s).2 = Except.ok () →
       (cycle env₂ (runRemove pid s).1).cache =
         CacheSlot.value (runRemove pid s).1.cart)
  ∧ ((runUpdate env pid amt s).2 = Except.ok () →
       (cycle env₂ (runUpdate env pid amt s).1).cache =
         CacheSlot.value (runUpdate env pid amt s).1.cart) := by
  have hInv := reachable_inv s hs
  refine ⟨fun h => ?_, fun h => ?_, fun h => ?_⟩
  · rcases hr : addProduct env pid s.cart with e | c
    · simp [runAdd, hr] at h
    · have h₁ : (runAdd env pid s).1 = commitCart s c := by simp [runAdd, hr]
      rw [h₁, cycle_commitCart env₂ s c hInv]
      simp [commitCart]
  · rcases hr : removeProduct pid s.cart with e | c
    · simp [runRemove, hr] at h
    · have h₁ : (runRemove pid s).1 = commitCart s c := by simp [runRemove, hr]
      rw [h₁, cycle_commitCart env₂ s c hInv]
      simp [commitCart]
  · rcases hr : updateProductAmount env pid amt s.cart with e | c
    · simp [runUpdate, hr] at h
    · have h₁ : (runUpdate env pid amt s).1 = commitCart s c := by
        simp [runUpdate, hr]
      rw [h₁, cycle_commitCart env₂ s c hInv]
      simp [commitCart]

/-- C5 (witness): after the successful `addProduct(1)` on the mounted empty
cart, the cache slot holds the committed cart. -/
theorem cache_mirror_witness :
    (cycle sampleEnv (runAdd sampleEnv 1 mounted).1).cache =
      CacheSlot.value (runAdd sampleEnv 1 mounted).1.cart :=
  (cache_mirror sampleEnv sampleEnv 1 0 mounted
    (Reachable.mount sampleEnv CacheSlot.absent [] rfl)).1 rfl

/-- C6: invalid amount floor. `updateProductAmount` with `amount < 1` fails
with the invalid-amount condition and leaves the provider state exactly as it
was — in particular amount 0 is rejected, not treated as a remove. -/
theorem update_amount_floor (env : RemoteEnv) (pid : Nat) (amt : Int)
    (s : ProviderState) (h : amt < 1) :
    updateProductAmount env pid amt s.cart = Except.error CartError.invalidAmount ∧
    (runUpdate env pid amt s).2 = Except.error CartError.invalidAmount ∧
    (runUpdate env pid amt s).1 = s := by
  have h₁ : updateProductAmount env pid amt s.cart =
      Except.error CartError.invalidAmount := by
    simp [updateProductAmount, h]
  exact ⟨h₁, by simp [runUpdate, h₁], by simp [runUpdate, h₁]⟩

/-- C6 (witness): `updateProductAmount(1, 0)` on the state with product 1 in
the cart is rejected and changes nothing. -/
theorem update_amount_floor_witness :
    updateProductAmount sampleEnv 1 0 mountedAdd1.cart =
      Except.error CartError.invalidAmount ∧
    (runUpdate sampleEnv 1 0 mountedAdd1).2 =
      Except.error CartError.invalidAmount ∧
    (runUpdate sampleEnv 1 0 mountedAdd1).1 = mountedAdd1 :=
  update_amount_floor sampleEnv 1 0 mountedAdd1 (by decide)

/-- C7: `removeProduct`. If no LineItem matches the productId, the operation
fails with the could-not-remove condition and the provider state is exactly
unchanged. If one matches, the cart decomposes around the first matching
LineItem, exactly that LineItem is deleted, the relative order of the
remaining LineItems is preserved, and the result is committed. -/
theorem removeProduct_spec (pid : Nat) (s : ProviderState) :
    ((∀ p ∈ s.cart, p.id ≠ pid) →
       (runRemove pid s).2 = Except.error CartError.productNotInCart ∧
       (runRemove pid s).1 = s)
  ∧ ((∃ p ∈ s.cart, p.id = pid) →
       ∃ l₁ x l₂, s.cart = l₁ ++ x :: l₂ ∧ x.id = pid ∧ (∀ p ∈ l₁, p.id ≠ pid) ∧
         removeProduct pid s.cart = Except.ok (l₁ ++ l₂) ∧
         (runRemove pid s).1.cart = l₁ ++ l₂ ∧
         (runRemove pid s).2 = Except.ok ()) := by
  constructor
  · intro h
    have hneg : findIndex (fun p => p.id = pid) s.cart = -1 :=
      findIndex_eq_neg_one _ _ (fun p hp => by simpa using h p hp)
    have hrem : removeProduct pid s.cart = Except.error CartError.productNotInCart := by
      simp [removeProduct, hneg]
    exact ⟨by simp [runRemove, hrem], by simp [runRemove, hrem]⟩
  · intro h
    have hneg : ¬ findIndex (fun p => p.id = pid) s.cart < 0 := by
      intro hlt
      obtain ⟨p, hp, hid⟩ := h
      have := findIndex_neg_all_false _ _ hlt p hp
      simp [hid] at this
    obtain ⟨l₁, x, l₂, hc, hl₁, hx, hlen⟩ :=
      findIndex_nonneg_decomp (fun p => p.id = pid) s.cart hneg
    have hrem : removeProduct pid s.cart = Except.ok (l₁ ++ l₂) := by
      simp only [removeProduct, if_neg hneg]
      rw [hlen, hc, eraseIdx_append_length]
    refine ⟨l₁, x, l₂, hc, by simpa using hx, fun p hp => by simpa using hl₁ p hp,
      hrem, ?_, ?_⟩
    · simp [runRemove, hrem, commitCart]
    · simp [runRemove, hrem]

/-- C7 (witness): removing product 1 from the cart that contains exactly
product 1 succeeds and commits the empty cart. -/
theorem removeProduct_spec_witness :
    ∃ l₁ x l₂, mountedAdd1.cart = l₁ ++ x :: l₂ ∧ x.id = 1 ∧
      (∀ p ∈ l₁, p.id ≠ 1) ∧
      removeProduct 1 mountedAdd1.cart = Except.ok (l₁ ++ l₂) ∧
      (runRemove 1 mountedAdd1).1.cart = l₁ ++ l₂ ∧
      (runRemove 1 mountedAdd1).2 = Except.ok () :=
  (removeProduct_spec 1 mountedAdd1).2
    ⟨{ id := 1, amount := 1, meta := "shoe" }, by decide, by decide⟩

/-- C8: the exposed stock snapshot mapping is empty in every reachable
provider state — starting from the initial empty snapshot, the refresh guard
(`stockPreviousValue !== stock`) never fires, so `loadStocks` never runs and
nothing ever populates the mapping. -/
theorem stock_snapshot_empty (s : ProviderState) (h : Reachable s) :
    s.stock = [] :=
  (reachable_inv s h).2.2.2.2

/-- C8 (witness): the snapshot of the concrete mounted state is empty. -/
theorem stock_snapshot_empty_witness : mounted.stock = [] :=
  stock_snapshot_empty mounted
    (Reachable.mount sampleEnv CacheSlot.absent [] rfl)

/-- C9: `addProduct` for a productId not in the cart performs no stock check:
for every environment in which the product resolves — with no constraint at
all on `getStock`, including stock 0 — it appends the product with amount 1
at the end of the cart and commits. -/
theorem addProduct_new_no_stock_check (env : RemoteEnv) (pid : Nat)
    (cart : List Product) (product : Product)
    (hp : env.getProduct pid = some product)
    (hf : cart.find? (fun p => p.id = pid) = none) :
    addProduct env pid cart = Except.ok (cart ++ [{ product with amount := 1 }]) ∧
    ∀ sp : ProviderState, sp.cart = cart →
      (runAdd env pid sp).2 = Except.ok () ∧
      (runAdd env pid sp).1.cart = cart ++ [{ product with amount := 1 }] := by
  have h₁ : addProduct env pid cart =
      Except.ok (cart ++ [{ product with amount := 1 }]) := by
    simp [addProduct, hp, hf]
  exact ⟨h₁, fun sp hsp => ⟨by simp [runAdd, hsp, h₁], by
    simp [runAdd, hsp, h₁, commitCart]⟩⟩

/-- C9 (witness): under `zeroStockEnv` (recorded stock amount 0 for
product 1), adding product 1 to the empty cart still succeeds with
amount 1. -/
theorem addProduct_new_no_stock_check_witness :
    addProduct zeroStockEnv 1 [] =
      Except.ok ([] ++ [{ id := 1, amount := 1, meta := "shoe" }]) ∧
    ∀ sp : ProviderState, sp.cart = [] →
      (runAdd zeroStockEnv 1 sp).2 = Except.ok () ∧
      (runAdd zeroStockEnv 1 sp).1.cart =
        [] ++ [{ id := 1, amount := 1, meta := "shoe" }] :=
  addProduct_new_no_stock_check zeroStockEnv 1 []
    { id := 1, amount := 7, meta := "shoe" } rfl rfl

/-- C10: frame property — none of the three cart operations modifies the
stock snapshot (neither the mapping nor its reference), on success and on
every failure path alike: the functions only ever call `setCart`, never
`setStock`. -/
theorem ops_preserve_stock (env : RemoteEnv) (pid : Nat) (amt : Int)
    (s : ProviderState) :
    (runAdd env pid s).1.stock = s.stock ∧
    (runAdd env pid s).1.stockRef = s.stockRef ∧
    (runRemove pid s).1.stock = s.stock ∧
    (runRemove pid s).1.stockRef = s.stockRef ∧
    (runUpdate env pid amt s).1.stock = s.stock ∧
    (runUpdate env pid amt s).1.stockRef = s.stockRef := by
  refine ⟨?_, ?_, ?_, ?_, ?_, ?_⟩ <;>
    first
    | rcases hr : addProduct env pid s.cart with e | c <;>
        simp [runAdd, hr, commitCart]
    | rcases hr : removeProduct pid s.cart with e | c <;>
        simp [runRemove, hr, commitCart]
    | rcases hr : updateProductAmount env pid amt s.cart with e | c <;>
        simp [runUpdate, hr, commitCart]

end RocketShoes
